import Mathlib

/-!
Verification of the movie-listing scraper in src/app.py against its
specification.  The HTML document is modelled as a tree of nodes; the
BeautifulSoup operations used by the script (find, find_all, get_text,
attribute access, the string filter, tag truthiness) are embedded as
executable functions on that tree, and the extraction pipeline of
extract_movies_from_soup is translated field by field.  The network
fetch loop and the main entry point are modelled over an abstract
sequence of HTTP attempt outcomes.
-/

namespace Pokki

/-- A node of the parsed HTML tree: a text node, or an element carrying its
tag name, its non-class attributes, its list of CSS classes (BeautifulSoup
splits the class attribute into a list), and its children in document
order. -/
inductive HNode where
  | text : String → HNode
  | elem : String → List (String × String) → List String → List HNode → HNode

/-- Whitespace characters recognised by the Python str.strip and the regex
class backslash-s on the ASCII range. -/
def isPyWs (c : Char) : Bool :=
  c = ' ' || c = '\t' || c = '\n' || c = '\r' || c = '\x0b' || c = '\x0c'

/-- Python str.strip on a character list. -/
def pyStripChars (l : List Char) : List Char :=
  ((l.dropWhile isPyWs).reverse.dropWhile isPyWs).reverse

/-- Python str.strip. -/
def pyStrip (s : String) : String :=
  ⟨pyStripChars s.data⟩

/-- Does the second list start with the first one. -/
def startsWithChars : List Char → List Char → Bool
  | [], _ => true
  | _ :: _, [] => false
  | p :: ps, c :: cs => p == c && startsWithChars ps cs

/-- Does the second list contain the first one as a contiguous run, the
semantics of re.search on a literal pattern. -/
def containsChars (pat : List Char) : List Char → Bool
  | [] => startsWithChars pat []
  | c :: cs => startsWithChars pat (c :: cs) || containsChars pat cs

/-- Lower-case a character list, for case-insensitive regex matching. -/
def lowerChars (l : List Char) : List Char :=
  l.map Char.toLower

/-- re.search of a literal pattern with re.I: case-insensitive substring. -/
def ciContains (s pat : String) : Bool :=
  containsChars (lowerChars pat.data) (lowerChars s.data)

/-- re.search of a literal pattern, case-sensitive substring. -/
def csContains (s pat : String) : Bool :=
  containsChars pat.data s.data

/-- Numeric value of a list of decimal digit characters. -/
def natOfDigits (l : List Char) : Nat :=
  l.foldl (fun n c => n * 10 + (c.toNat - 48)) 0

/-- First run of four consecutive decimal digits, the semantics of
re.search with pattern backslash-d{4}, as used for the year text. -/
def fourDigitRun : List Char → Option Nat
  | a :: b :: c :: d :: rest =>
    if a.isDigit && b.isDigit && c.isDigit && d.isDigit then
      some (natOfDigits [a, b, c, d])
    else fourDigitRun (b :: c :: d :: rest)
  | _ => none

/-- Leftmost decimal token of a string, the semantics of re.search with the
pattern of parse_imdb: one or more digits optionally followed by a dot and
one or more digits.  The float conversion of that token is modelled as the
exact rational value of the decimal literal. -/
def firstNum : List Char → Option ℚ
  | [] => none
  | c :: rest =>
    if c.isDigit then
      let intDs := c :: rest.takeWhile Char.isDigit
      let after := rest.dropWhile Char.isDigit
      match after with
      | '.' :: more =>
        let fracDs := more.takeWhile Char.isDigit
        if fracDs.isEmpty then some ((natOfDigits intDs : ℚ))
        else some ((natOfDigits intDs : ℚ) + (natOfDigits fracDs : ℚ) / (10 ^ fracDs.length : ℚ))
      | _ => some ((natOfDigits intDs : ℚ))
    else firstNum rest

/-- After the whitespace of backslash-s-star, does the list continue with
the letters m i n, case-insensitively. -/
def wsThenMin (l : List Char) : Bool :=
  startsWithChars ['m', 'i', 'n'] (lowerChars (l.dropWhile isPyWs))

/-- Having already consumed one digit, can the rest of the duration pattern
match here: zero or more further digits, optional whitespace, then min. -/
def afterDigit : List Char → Bool
  | [] => wsThenMin []
  | c :: cs => wsThenMin (c :: cs) || (c.isDigit && afterDigit cs)

/-- Existence of a match of the duration regex: one or more digits, optional
whitespace, then min, case-insensitively, anywhere in the text. -/
def hasDurPattern : List Char → Bool
  | [] => false
  | c :: cs => (c.isDigit && afterDigit cs) || hasDurPattern cs

/-- Tail of a valid Python integer literal body after its first digit:
digits with single underscores allowed between digits. -/
def digitsTail : List Char → Bool
  | [] => true
  | '_' :: c :: cs => c.isDigit && digitsTail cs
  | '_' :: [] => false
  | c :: cs => c.isDigit && digitsTail cs

/-- A nonempty digit sequence with single underscores between digits, the
body accepted by the Python int constructor after sign and whitespace. -/
def validIntBody (l : List Char) : Bool :=
  match l with
  | [] => false
  | c :: cs => c.isDigit && digitsTail cs

/-- The Python int constructor on a string: strip whitespace, optional sign,
then digits with optional single underscores; any other input raises, which
the call sites catch, so the failure is modelled as none. -/
def pyInt (s : String) : Option Int :=
  match pyStripChars s.data with
  | '+' :: body =>
    if validIntBody body then some ((natOfDigits (body.filter (fun c => c ≠ '_')) : Int)) else none
  | '-' :: body =>
    if validIntBody body then some (-(natOfDigits (body.filter (fun c => c ≠ '_')) : Int)) else none
  | body =>
    if validIntBody body then some ((natOfDigits (body.filter (fun c => c ≠ '_')) : Int)) else none

/-- The Python or-chain on optional strings: the first operand when it is a
nonempty string, otherwise the second. -/
def pyOr (a b : Option String) : Option String :=
  match a with
  | some s => if s == "" then b else some s
  | none => b

/-- Tag name test of a node. -/
def tagIs (name : String) : HNode → Bool
  | .text _ => false
  | .elem t _ _ _ => t == name

/-- Attribute access, the get method of a BeautifulSoup tag. -/
def getAttr (k : String) : HNode → Option String
  | .text _ => none
  | .elem _ attrs _ _ => attrs.lookup k

/-- The CSS classes of a node. -/
def classes : HNode → List String
  | .text _ => []
  | .elem _ _ cls _ => cls

/-- The children of a node. -/
def children : HNode → List HNode
  | .text _ => []
  | .elem _ _ _ cs => cs

/-- Python truthiness of a BeautifulSoup object: a tag defines len as the
number of its contents, so an element is truthy when it has at least one
child; a navigable string is truthy when nonempty. -/
def truthy : HNode → Bool
  | .text s => !(s == "")
  | .elem _ _ _ cs => !cs.isEmpty

/-- Truthiness of a possibly absent node, for Python if-tests on the result
of find. -/
def pyTruthy : Option HNode → Bool
  | none => false
  | some n => truthy n

/-- Does the node carry the given CSS class, the class underscore filter of
BeautifulSoup with a plain string. -/
def hasClass (c : String) (n : HNode) : Bool :=
  (classes n).contains c

/-- Does some CSS class of the node contain the given run, the class
underscore filter of BeautifulSoup with a regex of a literal pattern. -/
def classContains (sub : String) (n : HNode) : Bool :=
  (classes n).any (fun c => containsChars sub.data c.data)

/-- Does the href attribute exist and contain the given run, the href
filter of BeautifulSoup with a regex of a literal pattern. -/
def hrefContains (sub : String) (n : HNode) : Bool :=
  match getAttr "href" n with
  | some h => containsChars sub.data h.data
  | none => false

/-- Does the node carry the attribute with exactly the given value. -/
def attrEq (k v : String) (n : HNode) : Bool :=
  match getAttr k n with
  | some w => w == v
  | none => false

mutual
/-- All descendants of a node in document order, the recursive descendants
sequence of BeautifulSoup over which find and find_all filter.  The node
itself is not among its descendants. -/
def descendants : HNode → List HNode
  | .text _ => []
  | .elem _ _ _ cs => descendantsL cs

/-- Descendants of a sibling list: each node followed by its own
descendants, in order. -/
def descendantsL : List HNode → List HNode
  | [] => []
  | c :: cs => c :: descendants c ++ descendantsL cs
end

mutual
/-- The text-node strings below a node, in document order. -/
def textPieces : HNode → List String
  | .text s => [s]
  | .elem _ _ _ cs => textPiecesL cs

/-- The text-node strings below a sibling list. -/
def textPiecesL : List HNode → List String
  | [] => []
  | c :: cs => textPieces c ++ textPiecesL cs
end

/-- The BeautifulSoup string property: the sole text content of an element
whose contents are a single text node, possibly through a chain of sole
child elements; otherwise none. -/
def stringProp : HNode → Option String
  | .text s => some s
  | .elem _ _ _ [c] => stringProp c
  | .elem _ _ _ _ => none

/-- The BeautifulSoup string filter with a case-insensitive literal regex:
the string property of the node exists and contains the pattern. -/
def stringCi (pat : String) (n : HNode) : Bool :=
  match stringProp n with
  | some s => ciContains s pat
  | none => false

/-- get_text with a single-space separator and strip: every descendant text
piece stripped, empty pieces dropped, the rest joined by one space. -/
def getText (n : HNode) : String :=
  String.intercalate " " (((textPieces n).map pyStrip).filter (fun s => !(s == "")))

/-- find: the first descendant satisfying the filter, in document order. -/
def findNode (root : HNode) (p : HNode → Bool) : Option HNode :=
  (descendants root).find? p

/-- find_all: every descendant satisfying the filter, in document order. -/
def findAllNodes (root : HNode) (p : HNode → Bool) : List HNode :=
  (descendants root).filter p

/-- safe_text of app.py lines 24 to 28: none for an absent or falsy element,
otherwise its joined stripped text, with the empty string turned to none. -/
def safe_text (el : Option HNode) : Option String :=
  match el with
  | none => none
  | some e =>
    if truthy e then
      let t := getText e
      if t == "" then none else some t
    else none

/-- parse_duration of app.py lines 30 to 34: strip, with falsy text giving
none. -/
def parse_duration (text : String) : Option String :=
  if text == "" then none else some (pyStrip text)

/-- parse_imdb of app.py lines 36 to 45: the first decimal token of the
text as a number, none when the text is falsy or has no digit. -/
def parse_imdb (text : Option String) : Option ℚ :=
  match text with
  | none => none
  | some s => if s == "" then none else firstNum s.data

/-- The links sub-record of a movie record: watch, year and country URLs,
and the genre URLs parallel to the genre names.  An anchor matched only by
tag name may lack an href, so each URL is optional. -/
structure Links where
  watch : Option String
  year : Option String
  country : Option String
  genres : List (Option String)
deriving DecidableEq

/-- One extracted movie record, the dictionary built at app.py lines 153
to 170.  The float rating is modelled as an exact rational. -/
structure Movie where
  id : Option Int
  title : Option String
  year : Option Nat
  language : Option String
  imdb_rating : Option ℚ
  duration : Option String
  thumbnail : Option String
  description : Option String
  country : Option String
  genres : List String
  links : Links
deriving DecidableEq

/-- The three local variables of the item loop that are assigned only
inside the if-branch guarded by the mask anchor: watch_link, language
and thumbnail.  They persist across loop iterations. -/
structure MaskVars where
  watch_link : Option String
  language : Option String
  thumbnail : Option String
deriving DecidableEq

/-- app.py line 57: the data-movie-id attribute, else the data-id
attribute, else the empty string, under the Python or-chain. -/
def dataIdOf (it : HNode) : String :=
  match pyOr (getAttr "data-movie-id" it) (pyOr (getAttr "data-id" it) none) with
  | some s => s
  | none => ""

/-- app.py lines 58 to 61: the id field, none for an empty attribute text
and none when the int conversion raises. -/
def idOf (it : HNode) : Option Int :=
  if dataIdOf it == "" then none else pyInt (dataIdOf it)

/-- app.py line 63: the primary mask anchor of an item. -/
def maskOf (it : HNode) : Option HNode :=
  findNode it (fun n => tagIs "a" n && hasClass "ml-mask" n)

/-- app.py lines 64 to 68: the title from the h2 heading inside the mask
anchor, guarded by the truthiness of the heading. -/
def titleOf (a : HNode) : Option String :=
  match findNode a (tagIs "h2") with
  | some h2 => if truthy h2 then safe_text (some h2) else none
  | none => none

/-- app.py lines 70 to 78: the watch link, language badge and thumbnail
computed inside the if-branch guarded by the mask anchor. -/
def maskVarsOf (a : HNode) : MaskVars :=
  { watch_link := pyOr (getAttr "href" a) none
    language := safe_text (findNode a (fun n => tagIs "span" n && hasClass "mli-quality" n))
    thumbnail :=
      match findNode a (tagIs "img") with
      | some img =>
        if truthy img then pyOr (getAttr "data-original" img) (pyOr (getAttr "src" img) none)
        else none
      | none => none }

/-- app.py lines 81 to 84: the details scope, the descendant with id
hidden_tip when present and truthy, otherwise the whole item. -/
def hiddenOf (it : HNode) : HNode :=
  match findNode it (attrEq "id" "hidden_tip") with
  | some h => if truthy h then h else it
  | none => it

/-- app.py lines 87 to 95: the description from the f-desc paragraph,
preferring a nested inner paragraph when one is present and truthy. -/
def descriptionOf (hidden : HNode) : Option String :=
  match findNode hidden (fun n => tagIs "p" n && hasClass "f-desc" n) with
  | some de =>
    if truthy de then
      match findNode de (tagIs "p") with
      | some ip => if truthy ip then safe_text (some ip) else safe_text (some de)
      | none => safe_text (some de)
    else none
  | none => none

/-- app.py lines 98 to 107: the year and its link from the first anchor
whose href contains the release-year path; the year is the first four
digit run of the anchor text, with any failure caught to none. -/
def yearOf (hidden : HNode) : Option Nat × Option String :=
  match findNode hidden (fun n => tagIs "a" n && hrefContains "/release-year/" n) with
  | some yt =>
    if truthy yt then
      ((match safe_text (some yt) with
        | some s => fourDigitRun s.data
        | none => none),
       getAttr "href" yt)
    else (none, none)
  | none => (none, none)

/-- app.py lines 110 to 113: the rating from the first div whose class
matches the jt-imdb pattern. -/
def imdbOf (hidden : HNode) : Option ℚ :=
  match findNode hidden (fun n => tagIs "div" n && classContains "jt-imdb" n) with
  | some e => if truthy e then parse_imdb (safe_text (some e)) else none
  | none => none

/-- app.py lines 117 to 122: the first jt-info div whose text matches the
duration pattern supplies the duration. -/
def findDuration : List HNode → Option String
  | [] => none
  | ji :: rest =>
    match safe_text (some ji) with
    | some txt => if hasDurPattern txt.data then parse_duration txt else findDuration rest
    | none => findDuration rest

/-- app.py lines 116 to 122: the duration scanned over the jt-info divs of
the details scope. -/
def durationOf (hidden : HNode) : Option String :=
  findDuration (findAllNodes hidden (fun n => tagIs "div" n && hasClass "jt-info" n))

/-- app.py lines 124 to 132: the country name and link from the first div
whose string property matches the Country label, via the first anchor
inside it. -/
def countryOf (hidden : HNode) : Option String × Option String :=
  match findNode hidden (fun n => tagIs "div" n && stringCi "Country:" n) with
  | some bc =>
    if truthy bc then
      match findNode bc (tagIs "a") with
      | some ac =>
        if truthy ac then (safe_text (some ac), getAttr "href" ac) else (none, none)
      | none => (none, none)
    else (none, none)
  | none => (none, none)

/-- One step of the labeled genre loop at app.py lines 140 to 144: append
the anchor text and href in parallel, skipping anchors with falsy text. -/
def genreStep (p : List String × List (Option String)) (a : HNode) :
    List String × List (Option String) :=
  match safe_text (some a) with
  | some g => (p.1 ++ [g], p.2 ++ [getAttr "href" a])
  | none => p

/-- One step of the fallback genre loop at app.py lines 147 to 151: as the
labeled step, but a name already collected is skipped. -/
def genreStepDedup (p : List String × List (Option String)) (a : HNode) :
    List String × List (Option String) :=
  match safe_text (some a) with
  | some g => if g ∈ p.1 then p else (p.1 ++ [g], p.2 ++ [getAttr "href" a])
  | none => p

/-- app.py lines 140 to 144: the labeled genre branch collects the text and
href of every anchor inside the genre div by parallel appends. -/
def collectGenres (links : List HNode) : List String × List (Option String) :=
  links.foldl genreStep ([], [])

/-- app.py lines 146 to 151: the fallback branch collects every anchor of
the details scope whose href contains the genre path, deduplicating by
genre name while keeping the first pairing. -/
def collectGenresDedup (links : List HNode) : List String × List (Option String) :=
  links.foldl genreStepDedup ([], [])

/-- The anchors of the fallback genre scan at app.py line 147. -/
def genreFallbackLinks (hidden : HNode) : List HNode :=
  findAllNodes hidden (fun n => tagIs "a" n && hrefContains "/genre/" n)

/-- app.py lines 135 to 151: the genre names paired with their links, from
the div whose string property matches the Genre label when that div is
found and truthy, otherwise from the fallback scan. -/
def genresOf (hidden : HNode) : List String × List (Option String) :=
  match findNode hidden (fun n => tagIs "div" n && stringCi "Genre:" n) with
  | some gd =>
    if truthy gd then collectGenres (findAllNodes gd (tagIs "a"))
    else collectGenresDedup (genreFallbackLinks hidden)
  | none => collectGenresDedup (genreFallbackLinks hidden)

/-- The list of anchors from which the genres of an item are read: the
anchors of the labeled genre div when that branch is taken, otherwise the
anchors of the fallback scan. -/
def genreSearchLinks (hidden : HNode) : List HNode :=
  match findNode hidden (fun n => tagIs "div" n && stringCi "Genre:" n) with
  | some gd =>
    if truthy gd then findAllNodes gd (tagIs "a")
    else genreFallbackLinks hidden
  | none => genreFallbackLinks hidden

/-- The movie dictionary of app.py lines 153 to 170, assembled from the
per-field extractors of the item together with the three loop variables
guarded by the mask anchor. -/
def buildMovie (it : HNode) (title : Option String) (mv : MaskVars) : Movie :=
  { id := idOf it
    title := title
    year := (yearOf (hiddenOf it)).1
    language := mv.language
    imdb_rating := imdbOf (hiddenOf it)
    duration := durationOf (hiddenOf it)
    thumbnail := mv.thumbnail
    description := descriptionOf (hiddenOf it)
    country := (countryOf (hiddenOf it)).1
    genres := (genresOf (hiddenOf it)).1
    links :=
      { watch := mv.watch_link
        year := (yearOf (hiddenOf it)).2
        country := (countryOf (hiddenOf it)).2
        genres := (genresOf (hiddenOf it)).2 } }

/-- The item body when the mask anchor is absent or falsy: the three loop
variables are not assigned, so the dictionary at app.py line 164 reads
their values from the previous iteration; when no previous iteration bound
them, the lookup raises a NameError, which the per-item handler catches. -/
def noMaskCase (prev : Option MaskVars) (it : HNode) : Except Unit (Movie × Option MaskVars) :=
  match prev with
  | some mv => .ok (buildMovie it none mv, some mv)
  | none => .error ()

/-- One iteration of the item loop at app.py lines 54 to 176: given the
values bound to the three mask-guarded variables by earlier iterations,
produce either the emitted record together with the new variable bindings,
or the caught per-item exception. -/
def extractItem (prev : Option MaskVars) (it : HNode) : Except Unit (Movie × Option MaskVars) :=
  match maskOf it with
  | some a =>
    if truthy a then
      let mv := maskVarsOf a
      .ok (buildMovie it (titleOf a) mv, some mv)
    else noMaskCase prev it
  | none => noMaskCase prev it

/-- The item loop: records of successful items in order, with a failed item
skipped and the loop state carried on unchanged. -/
def extractLoop : Option MaskVars → List HNode → List Movie
  | _, [] => []
  | st, it :: rest =>
    match extractItem st it with
    | .ok (m, st') => m :: extractLoop st' rest
    | .error _ => extractLoop st rest

/-- The loop state after a list of items, whether or not they succeeded. -/
def stateAfter (st : Option MaskVars) (items : List HNode) : Option MaskVars :=
  items.foldl
    (fun s it =>
      match extractItem s it with
      | .ok (_, s') => s'
      | .error _ => s)
    st

/-- Do all items of the list extract successfully, threading the loop
state. -/
def itemsAllOk : Option MaskVars → List HNode → Bool
  | _, [] => true
  | st, it :: rest =>
    match extractItem st it with
    | .ok (_, st') => itemsAllOk st' rest
    | .error _ => false

/-- extract_movies_from_soup of app.py lines 47 to 178: locate the
movies-list container, and when it is present and truthy run the item loop
over all ml-item divs inside it; otherwise the empty list. -/
def extract_movies_from_soup (soup : HNode) : List Movie :=
  match findNode soup (fun n => tagIs "div" n && hasClass "movies-list" n) with
  | some container =>
    if truthy container then
      extractLoop none (findAllNodes container (fun n => tagIs "div" n && hasClass "ml-item" n))
    else []
  | none => []

/-- The outcome of one HTTP GET attempt: a response with a status code and
a body, or a raised transport exception. -/
inductive AttemptOutcome where
  | ok : Nat → String → AttemptOutcome
  | exn : AttemptOutcome

/-- The observable behaviour of one fetch call: the returned value, the
number of GET requests issued, and the sleeps performed in order. -/
structure FetchTrace where
  result : Option String
  requests : Nat
  delays : List ℚ
deriving DecidableEq

/-- One linear-backoff sleep: backoff times the one-based attempt number
of a zero-based attempt index, the argument of time.sleep at app.py
line 190. -/
def linDelay (backoff : ℚ) (j : Nat) : ℚ :=
  backoff * ((j : ℚ) + 1)

/-- The retry loop of fetch_html at app.py lines 181 to 190, recursing on
the remaining attempt budget with the zero-based attempt index: a response
with status 200 returns its body at once; any other status or a raised
exception is followed by the linear-backoff sleep and the next attempt. -/
def fetchFrom (responses : Nat → AttemptOutcome) (backoff : ℚ) : Nat → Nat → FetchTrace
  | 0, _ => ⟨none, 0, []⟩
  | fuel + 1, attempt =>
    match responses attempt with
    | .ok status body =>
      if status == 200 then ⟨some body, 1, []⟩
      else
        ⟨(fetchFrom responses backoff fuel (attempt + 1)).result,
         (fetchFrom responses backoff fuel (attempt + 1)).requests + 1,
         linDelay backoff attempt :: (fetchFrom responses backoff fuel (attempt + 1)).delays⟩
    | .exn =>
      ⟨(fetchFrom responses backoff fuel (attempt + 1)).result,
       (fetchFrom responses backoff fuel (attempt + 1)).requests + 1,
       linDelay backoff attempt :: (fetchFrom responses backoff fuel (attempt + 1)).delays⟩

/-- fetch_html of app.py lines 180 to 191 over an abstract sequence of
attempt outcomes: at most tries attempts, returning none after the last
failure. -/
def fetch_html (responses : Nat → AttemptOutcome) (tries : Nat) (backoff : ℚ) : FetchTrace :=
  fetchFrom responses backoff tries 0

/-- The scraping URL configured at app.py line 17. -/
def URL : String := "https://watchofree.beer/director/netflix/"

/-- The output path configured at app.py line 18. -/
def OUTPUT_FILE : String := "voot.json"

/-- The observable behaviour of one run of main: the movie list written to
the output file as the movies member of the JSON object, or none when no
file is written, together with the lines printed to standard output. -/
structure RunResult where
  written : Option (List Movie)
  printed : List String

/-- main of app.py lines 193 to 206, parameterised by the attempt outcomes
of the fetch and by the HTML parser: a falsy fetch result prints the
failure line and writes nothing, otherwise the extracted records are
written and the success line printed. -/
def main (responses : Nat → AttemptOutcome) (parseHtml : String → HNode) : RunResult :=
  match (fetch_html responses 3 1).result with
  | none => ⟨none, ["Failed to fetch HTML from " ++ URL]⟩
  | some t =>
    if t == "" then ⟨none, ["Failed to fetch HTML from " ++ URL]⟩
    else
      let movies := extract_movies_from_soup (parseHtml t)
      ⟨some movies, ["Wrote " ++ toString movies.length ++ " movies to " ++ OUTPUT_FILE]⟩

/-- Shorthand element constructor for concrete documents. -/
def el (t : String) (attrs : List (String × String)) (cls : List String)
    (cs : List HNode) : HNode :=
  .elem t attrs cls cs

/-- Shorthand text-node constructor for concrete documents. -/
def tx (s : String) : HNode :=
  .text s

/-- A find result satisfies its filter. -/
theorem findNode_pred {root x : HNode} {p : HNode → Bool}
    (h : findNode root p = some x) : p x = true :=
  List.find?_some h

/-- An element with a string property has a child, hence is truthy. -/
theorem truthy_of_stringCi {n : HNode} {pat : String}
    (h : (tagIs "div" n && stringCi pat n) = true) : truthy n = true := by
  rcases n with s | ⟨t, attrs, cls, cs⟩
  · simp [tagIs] at h
  · rcases cs with _ | ⟨c, cs'⟩
    · simp [stringCi, stringProp] at h
    · simp [truthy]

/-- Unfolding equation of the item body when the mask anchor is absent. -/
theorem extractItem_mask_none {it : HNode} (st : Option MaskVars)
    (h : maskOf it = none) : extractItem st it = noMaskCase st it := by
  unfold extractItem
  rw [h]

/-- Unfolding equation of the item body when the mask anchor is found. -/
theorem extractItem_mask_some {it a : HNode} (st : Option MaskVars)
    (h : maskOf it = some a) :
    extractItem st it =
      if truthy a then
        Except.ok (buildMovie it (titleOf a) (maskVarsOf a), some (maskVarsOf a))
      else noMaskCase st it := by
  unfold extractItem
  rw [h]

/-- Every record returned by the item loop body is the dictionary of
app.py lines 153 to 170 for its item, for some title and some bindings of
the three mask-guarded variables. -/
theorem extractItem_ok_build {st : Option MaskVars} {it : HNode} {m : Movie}
    {st' : Option MaskVars} (h : extractItem st it = Except.ok (m, st')) :
    ∃ t mv, m = buildMovie it t mv := by
  rcases hm : maskOf it with _ | a
  · rw [extractItem_mask_none st hm] at h
    rcases st with _ | mv0
    · simp [noMaskCase] at h
    · simp only [noMaskCase, Except.ok.injEq, Prod.mk.injEq] at h
      exact ⟨none, mv0, h.1.symm⟩
  · rw [extractItem_mask_some st hm] at h
    by_cases ht : truthy a = true
    · rw [if_pos ht] at h
      simp only [Except.ok.injEq, Prod.mk.injEq] at h
      exact ⟨titleOf a, maskVarsOf a, h.1.symm⟩
    · rw [if_neg ht] at h
      rcases st with _ | mv0
      · simp [noMaskCase] at h
      · simp only [noMaskCase, Except.ok.injEq, Prod.mk.injEq] at h
        exact ⟨none, mv0, h.1.symm⟩

/-- The item loop body succeeds exactly when the mask anchor is present and
truthy or a previous iteration already bound the three loop variables. -/
theorem extractItem_isOk (st : Option MaskVars) (it : HNode) :
    (extractItem st it).isOk = true ↔
      (pyTruthy (maskOf it) = true ∨ st.isSome = true) := by
  rcases hm : maskOf it with _ | a
  · rw [extractItem_mask_none st hm]
    rcases st with _ | mv <;> simp [noMaskCase, pyTruthy, Except.isOk, Except.toBool]
  · rw [extractItem_mask_some st hm]
    by_cases ht : truthy a = true
    · rw [if_pos ht]
      simp [pyTruthy, ht, Except.isOk, Except.toBool]
    · rw [if_neg ht]
      rcases st with _ | mv <;>
        simp [noMaskCase, pyTruthy, ht, Except.isOk, Except.toBool]

/-- The year field equals the numeric coercion of the year-anchor text. -/
def yearTextOf (hidden : HNode) : Option String :=
  match findNode hidden (fun n => tagIs "a" n && hrefContains "/release-year/" n) with
  | some yt => if truthy yt then safe_text (some yt) else none
  | none => none

/-- The rating-block text handed to parse_imdb. -/
def ratingTextOf (hidden : HNode) : Option String :=
  match findNode hidden (fun n => tagIs "div" n && classContains "jt-imdb" n) with
  | some e => if truthy e then safe_text (some e) else none
  | none => none

/-- The year field is the four digit run of the year text when there is
one. -/
theorem yearOf_fst (hidden : HNode) :
    (yearOf hidden).1 = (yearTextOf hidden).bind (fun s => fourDigitRun s.data) := by
  unfold yearOf yearTextOf
  split
  next yt hyt =>
    by_cases ht : truthy yt = true
    · simp only [ht, if_true]
      cases safe_text (some yt) <;> rfl
    · simp only [ht]
      simp
  next => rfl

/-- The rating field is parse_imdb of the rating text. -/
theorem imdbOf_eq (hidden : HNode) :
    imdbOf hidden = parse_imdb (ratingTextOf hidden) := by
  unfold imdbOf ratingTextOf
  split
  next e he =>
    by_cases ht : truthy e = true
    · simp [ht]
    · simp [ht, parse_imdb]
  next => rfl

/-- The empty item list yields no records. -/
theorem extractLoop_nil (st : Option MaskVars) : extractLoop st [] = [] := rfl

/-- The loop state after no items. -/
theorem stateAfter_nil (st : Option MaskVars) : stateAfter st [] = st := rfl

/-- Loop equation for a successful head item. -/
theorem extractLoop_cons_ok {st st' : Option MaskVars} {it : HNode} {m : Movie}
    (rest : List HNode) (h : extractItem st it = Except.ok (m, st')) :
    extractLoop st (it :: rest) = m :: extractLoop st' rest := by
  simp only [extractLoop, h]

/-- Loop equation for a failing head item: it is skipped whole. -/
theorem extractLoop_cons_err {st : Option MaskVars} {it : HNode}
    (rest : List HNode) (h : extractItem st it = Except.error ()) :
    extractLoop st (it :: rest) = extractLoop st rest := by
  simp only [extractLoop, h]

/-- State equation for a successful head item. -/
theorem stateAfter_cons_ok {st st' : Option MaskVars} {it : HNode} {m : Movie}
    (l : List HNode) (h : extractItem st it = Except.ok (m, st')) :
    stateAfter st (it :: l) = stateAfter st' l := by
  unfold stateAfter
  simp only [List.foldl_cons]
  rw [h]

/-- State equation for a failing head item: the bindings are unchanged,
since the exception is raised before any of the three variables would have
been assigned. -/
theorem stateAfter_cons_err {st : Option MaskVars} {it : HNode}
    (l : List HNode) (h : extractItem st it = Except.error ()) :
    stateAfter st (it :: l) = stateAfter st l := by
  unfold stateAfter
  simp only [List.foldl_cons]
  rw [h]

/-- Success-of-all equation for a successful head item. -/
theorem itemsAllOk_cons_ok {st st' : Option MaskVars} {it : HNode} {m : Movie}
    (l : List HNode) (h : extractItem st it = Except.ok (m, st')) :
    itemsAllOk st (it :: l) = itemsAllOk st' l := by
  simp only [itemsAllOk, h]

/-- Success-of-all equation for a failing head item. -/
theorem itemsAllOk_cons_err {st : Option MaskVars} {it : HNode}
    (l : List HNode) (h : extractItem st it = Except.error ()) :
    itemsAllOk st (it :: l) = false := by
  simp only [itemsAllOk, h]

/-- An item result that is not ok is the caught exception. -/
theorem eq_error_of_not_isOk {e : Except Unit (Movie × Option MaskVars)}
    (h : e.isOk = false) : e = Except.error () := by
  cases e with
  | error u => cases u; rfl
  | ok p => simp [Except.isOk, Except.toBool] at h

/-- A failing item contributes no record and the loop resumes after it with
the state it had before the item. -/
theorem extractLoop_append_skip (bad : HNode) (post : List HNode) :
    ∀ (pre : List HNode) (st : Option MaskVars),
      (extractItem (stateAfter st pre) bad).isOk = false →
      extractLoop st (pre ++ bad :: post) =
        extractLoop st pre ++ extractLoop (stateAfter st pre) post := by
  intro pre
  induction pre with
  | nil =>
    intro st hbad
    rw [stateAfter_nil] at hbad
    have herr := eq_error_of_not_isOk (by rw [hbad])
    rw [List.nil_append, extractLoop_cons_err post herr, extractLoop_nil,
      List.nil_append, stateAfter_nil]
  | cons it pre ih =>
    intro st hbad
    rcases hh : extractItem st it with u | ⟨m, st'⟩
    · cases u
      rw [stateAfter_cons_err pre hh] at hbad
      rw [List.cons_append, extractLoop_cons_err _ hh, extractLoop_cons_err _ hh,
        stateAfter_cons_err pre hh]
      exact ih st hbad
    · rw [stateAfter_cons_ok pre hh] at hbad
      rw [List.cons_append, extractLoop_cons_ok _ hh, extractLoop_cons_ok _ hh,
        stateAfter_cons_ok pre hh, List.cons_append]
      rw [ih st' hbad]

/-- When every item of a list succeeds, the loop emits exactly one record
per item. -/
theorem extractLoop_length_allOk :
    ∀ (l : List HNode) (st : Option MaskVars), itemsAllOk st l = true →
      (extractLoop st l).length = l.length := by
  intro l
  induction l with
  | nil => intro st _; rfl
  | cons it rest ih =>
    intro st hok
    rcases hh : extractItem st it with u | ⟨m, st'⟩
    · cases u
      rw [itemsAllOk_cons_err rest hh] at hok
      cases hok
    · rw [itemsAllOk_cons_ok rest hh] at hok
      rw [extractLoop_cons_ok rest hh, List.length_cons, List.length_cons,
        ih st' hok]

/-- Fold invariant of the labeled genre loop: the accumulator stays a pair
of parallel projections of one pair list whose entries all come from the
anchors scanned. -/
theorem genreFold_pairs (S : List HNode) :
    ∀ (links : List HNode) (pairs0 : List (String × Option String)),
      (∀ a ∈ links, a ∈ S) →
      (∀ q ∈ pairs0, ∃ a ∈ S, safe_text (some a) = some q.1 ∧ getAttr "href" a = q.2) →
      ∃ pairs : List (String × Option String),
        links.foldl genreStep (pairs0.map Prod.fst, pairs0.map Prod.snd) =
          (pairs.map Prod.fst, pairs.map Prod.snd) ∧
        ∀ q ∈ pairs, ∃ a ∈ S, safe_text (some a) = some q.1 ∧ getAttr "href" a = q.2 := by
  intro links
  induction links with
  | nil => exact fun pairs0 _ hprov => ⟨pairs0, rfl, hprov⟩
  | cons a links ih =>
    intro pairs0 hmem hprov
    rcases hs : safe_text (some a) with _ | g
    · have hstep : genreStep (pairs0.map Prod.fst, pairs0.map Prod.snd) a
          = (pairs0.map Prod.fst, pairs0.map Prod.snd) := by
        simp only [genreStep, hs]
      rw [List.foldl_cons, hstep]
      exact ih pairs0 (fun x hx => hmem x (List.mem_cons_of_mem a hx)) hprov
    · have hstep : genreStep (pairs0.map Prod.fst, pairs0.map Prod.snd) a
          = ((pairs0 ++ [(g, getAttr "href" a)]).map Prod.fst,
             (pairs0 ++ [(g, getAttr "href" a)]).map Prod.snd) := by
        simp [genreStep, hs]
      rw [List.foldl_cons, hstep]
      refine ih (pairs0 ++ [(g, getAttr "href" a)])
        (fun x hx => hmem x (List.mem_cons_of_mem a hx)) ?_
      intro q hq
      rcases List.mem_append.mp hq with hq | hq
      · exact hprov q hq
      · rcases List.mem_singleton.mp hq with rfl
        exact ⟨a, hmem a (List.mem_cons_self a links), hs, rfl⟩

/-- Fold invariant of the fallback genre loop, as for the labeled loop. -/
theorem genreFoldDedup_pairs (S : List HNode) :
    ∀ (links : List HNode) (pairs0 : List (String × Option String)),
      (∀ a ∈ links, a ∈ S) →
      (∀ q ∈ pairs0, ∃ a ∈ S, safe_text (some a) = some q.1 ∧ getAttr "href" a = q.2) →
      ∃ pairs : List (String × Option String),
        links.foldl genreStepDedup (pairs0.map Prod.fst, pairs0.map Prod.snd) =
          (pairs.map Prod.fst, pairs.map Prod.snd) ∧
        ∀ q ∈ pairs, ∃ a ∈ S, safe_text (some a) = some q.1 ∧ getAttr "href" a = q.2 := by
  intro links
  induction links with
  | nil => exact fun pairs0 _ hprov => ⟨pairs0, rfl, hprov⟩
  | cons a links ih =>
    intro pairs0 hmem hprov
    rcases hs : safe_text (some a) with _ | g
    · have hstep : genreStepDedup (pairs0.map Prod.fst, pairs0.map Prod.snd) a
          = (pairs0.map Prod.fst, pairs0.map Prod.snd) := by
        simp only [genreStepDedup, hs]
      rw [List.foldl_cons, hstep]
      exact ih pairs0 (fun x hx => hmem x (List.mem_cons_of_mem a hx)) hprov
    · by_cases hg : g ∈ pairs0.map Prod.fst
      · have hstep : genreStepDedup (pairs0.map Prod.fst, pairs0.map Prod.snd) a
            = (pairs0.map Prod.fst, pairs0.map Prod.snd) := by
          simp only [genreStepDedup, hs]
          rw [if_pos hg]
        rw [List.foldl_cons, hstep]
        exact ih pairs0 (fun x hx => hmem x (List.mem_cons_of_mem a hx)) hprov
      · have hstep : genreStepDedup (pairs0.map Prod.fst, pairs0.map Prod.snd) a
            = ((pairs0 ++ [(g, getAttr "href" a)]).map Prod.fst,
               (pairs0 ++ [(g, getAttr "href" a)]).map Prod.snd) := by
          simp only [genreStepDedup, hs]
          rw [if_neg hg]
          simp
        rw [List.foldl_cons, hstep]
        refine ih (pairs0 ++ [(g, getAttr "href" a)])
          (fun x hx => hmem x (List.mem_cons_of_mem a hx)) ?_
        intro q hq
        rcases List.mem_append.mp hq with hq | hq
        · exact hprov q hq
        · rcases List.mem_singleton.mp hq with rfl
          exact ⟨a, hmem a (List.mem_cons_self a links), hs, rfl⟩

/-- The genres of an item are parallel projections of one list of pairs,
each pair read off one anchor of the scanned genre links. -/
theorem genresOf_pairs (hidden : HNode) :
    ∃ pairs : List (String × Option String),
      genresOf hidden = (pairs.map Prod.fst, pairs.map Prod.snd) ∧
      ∀ q ∈ pairs, ∃ a ∈ genreSearchLinks hidden,
        safe_text (some a) = some q.1 ∧ getAttr "href" a = q.2 := by
  unfold genresOf genreSearchLinks
  rcases hgd : findNode hidden (fun n => tagIs "div" n && stringCi "Genre:" n) with _ | gd <;>
    simp only [hgd]
  · exact genreFoldDedup_pairs _ _ [] (fun a ha => ha) (by simp)
  · by_cases ht : truthy gd = true
    · simp only [if_pos ht]
      exact genreFold_pairs _ _ [] (fun a ha => ha) (by simp)
    · simp only [if_neg ht]
      exact genreFoldDedup_pairs _ _ [] (fun a ha => ha) (by simp)

/-- Spec-side reading of the phrase about an element whose own text
contains a label: the joined stripped text of the direct text children of
the element.  Used only to state claims against the code behaviour. -/
def specOwnText (n : HNode) : String :=
  String.intercalate " "
    (((children n).filterMap (fun c =>
        match c with
        | .text s => some (pyStrip s)
        | .elem _ _ _ _ => none)).filter (fun s => !(s == "")))

/-- Concrete item with an id attribute and a description but no mask
anchor. -/
def c1item : HNode :=
  el "div" [("data-movie-id", "7")] ["ml-item"]
    [el "div" [("id", "hidden_tip")] []
      [el "p" [] ["f-desc"] [tx "A fine movie."]]]

/-- Concrete page whose only item is the mask-less item. -/
def c1page : HNode :=
  el "html" [] [] [el "div" [] ["movies-list"] [c1item]]

/-- Concrete item whose extraction raises: no mask anchor and no earlier
binding of the mask-guarded variables. -/
def c2bad : HNode :=
  el "div" [("data-movie-id", "3")] ["ml-item"]
    [el "div" [("id", "hidden_tip")] []
      [el "p" [] ["f-desc"] [tx "Bad markup here."]]]

/-- Concrete item that extracts successfully. -/
def c2good : HNode :=
  el "div" [("data-movie-id", "4")] ["ml-item"]
    [el "a" [("href", "/watch/g")] ["ml-mask"] [el "h2" [] [] [tx "Good"]]]

/-- Concrete container with the raising item before the good one. -/
def c2container : HNode :=
  el "div" [] ["movies-list"] [c2bad, c2good]

/-- Concrete page for the skip scenario. -/
def c2page : HNode :=
  el "html" [] [] [c2container]

/-- Concrete item with two fallback genre links. -/
def w3item : HNode :=
  el "div" [] ["ml-item"]
    [el "a" [("href", "/watch/w3")] ["ml-mask"] [el "h2" [] [] [tx "W Three"]],
     el "div" [("id", "hidden_tip")] []
       [el "div" [] []
         [el "a" [("href", "/genre/action")] [] [tx "Action"],
          tx " / ",
          el "a" [("href", "/genre/drama")] [] [tx "Drama"]]]]

/-- Concrete first item binding the mask-guarded variables. -/
def c4item1 : HNode :=
  el "div" [] ["ml-item"]
    [el "a" [("href", "/watch/x")] ["ml-mask"] [el "h2" [] [] [tx "Movie One"]]]

/-- Concrete second item with no mask anchor of its own. -/
def c4item2 : HNode :=
  el "div" [("data-movie-id", "9")] ["ml-item"]
    [el "div" [("id", "hidden_tip")] [] [el "p" [] ["f-desc"] [tx "Second"]]]

/-- Concrete page with both items. -/
def c4page : HNode :=
  el "html" [] [] [el "div" [] ["movies-list"] [c4item1, c4item2]]

/-- Concrete page with the second item alone. -/
def c4pageIso : HNode :=
  el "html" [] [] [el "div" [] ["movies-list"] [c4item2]]

/-- Concrete page with no movies-list container. -/
def w7page : HNode :=
  el "html" [] [] [el "div" [] ["other-section"] [tx "no listings"]]

/-- C1.  The spec claims that an item with no primary mask anchor is still
emitted, with title, watch link, language and thumbnail null and the other
fields extracted.  The code instead skips the item: the variables holding
the watch link, language and thumbnail are assigned only inside the branch
guarded by the anchor, so for a first such item their lookup raises a
NameError that the per-item handler catches, dropping the record.  On the
page below the only item carries a numeric id attribute and a description,
yet the output is empty. -/
theorem c1_missing_mask_item_is_dropped :
    getAttr "data-movie-id" c1item = some "7" ∧
    maskOf c1item = none ∧
    findAllNodes (el "div" [] ["movies-list"] [c1item])
      (fun n => tagIs "div" n && hasClass "ml-item" n) = [c1item] ∧
    extract_movies_from_soup c1page = [] :=
  ⟨rfl, rfl, rfl, rfl⟩

/-- C2.  When the items of the page split as pre, one raising item, post,
with every item of pre and post succeeding and the raising item failing at
the loop state reached after pre, the output is exactly the records of pre
followed by the records of post: nothing, not even a partial record, for
the raising item, one record per other item, in document order. -/
theorem c2_raising_item_skipped_rest_emitted
    (soup container : HNode) (pre post : List HNode) (bad : HNode)
    (hc : findNode soup (fun n => tagIs "div" n && hasClass "movies-list" n) = some container)
    (ht : truthy container = true)
    (hitems : findAllNodes container (fun n => tagIs "div" n && hasClass "ml-item" n)
      = pre ++ bad :: post)
    (hbad : (extractItem (stateAfter none pre) bad).isOk = false)
    (hpre : itemsAllOk none pre = true)
    (hpost : itemsAllOk (stateAfter none pre) post = true) :
    extract_movies_from_soup soup =
      extractLoop none pre ++ extractLoop (stateAfter none pre) post ∧
    (extractLoop none pre).length = pre.length ∧
    (extractLoop (stateAfter none pre) post).length = post.length := by
  have h1 : extract_movies_from_soup soup = extractLoop none (pre ++ bad :: post) := by
    unfold extract_movies_from_soup
    simp only [hc]
    rw [if_pos ht, hitems]
  exact ⟨h1.trans (extractLoop_append_skip bad post pre none hbad),
    extractLoop_length_allOk pre none hpre,
    extractLoop_length_allOk post (stateAfter none pre) hpost⟩

/-- Witness for C2 on a concrete two-item page: the raising first item is
absent from the output and the good item still yields its record. -/
theorem c2_skip_witness :
    extract_movies_from_soup c2page =
      extractLoop none [] ++ extractLoop (stateAfter none []) [c2good] ∧
    (extractLoop (stateAfter none []) [c2good]).length = 1 := by
  have h := c2_raising_item_skipped_rest_emitted c2page c2container [] [c2good] c2bad
    rfl rfl rfl rfl rfl rfl
  exact ⟨h.1, h.2.2⟩

/-- C3.  For every successfully extracted record, the genre names and the
genre links are the two parallel projections of a single list of pairs,
and every pair is the text and the href of one and the same anchor among
the scanned genre links, in both branches. -/
theorem c3_genres_parallel (st : Option MaskVars) (it : HNode) (m : Movie)
    (st' : Option MaskVars) (h : extractItem st it = Except.ok (m, st')) :
    ∃ pairs : List (String × Option String),
      m.genres = pairs.map Prod.fst ∧
      m.links.genres = pairs.map Prod.snd ∧
      ∀ q ∈ pairs, ∃ a ∈ genreSearchLinks (hiddenOf it),
        safe_text (some a) = some q.1 ∧ getAttr "href" a = q.2 := by
  obtain ⟨t, mv, rfl⟩ := extractItem_ok_build h
  obtain ⟨pairs, hp, hprov⟩ := genresOf_pairs (hiddenOf it)
  refine ⟨pairs, ?_, ?_, hprov⟩
  · show (genresOf (hiddenOf it)).1 = _
    rw [hp]
  · show (genresOf (hiddenOf it)).2 = _
    rw [hp]

/-- Witness for C3 on a concrete item with two genre links. -/
theorem c3_parallel_witness :
    ∃ m st', extractItem none w3item = Except.ok (m, st') ∧
      ∃ pairs : List (String × Option String),
        m.genres = pairs.map Prod.fst ∧
        m.links.genres = pairs.map Prod.snd ∧
        ∀ q ∈ pairs, ∃ a ∈ genreSearchLinks (hiddenOf w3item),
          safe_text (some a) = some q.1 ∧ getAttr "href" a = q.2 := by
  refine ⟨_, _, rfl, ?_⟩
  exact c3_genres_parallel none w3item _ _ rfl

/-- C4.  The spec claims extraction has no cross-item state, so an item
extracts the same in isolation as inside the batch.  The code shares the
mask-guarded loop variables across iterations: on the two-item page below,
the second item, which lacks a mask anchor, is emitted carrying the watch
link of the first item, while on the page holding the second item alone no
record at all is produced. -/
theorem c4_cross_item_leak :
    (extract_movies_from_soup c4page).map
      (fun m => (m.id, m.title, m.links.watch, m.language, m.thumbnail)) =
      [(none, some "Movie One", some "/watch/x", none, none),
       (some 9, none, some "/watch/x", none, none)] ∧
    extract_movies_from_soup c4pageIso = [] :=
  ⟨rfl, rfl⟩

/-- C7.  When the page has no div bearing the movies-list class, the
extractor returns the empty list rather than signalling an error. -/
theorem c7_no_container_empty (soup : HNode)
    (h : findNode soup (fun n => tagIs "div" n && hasClass "movies-list" n) = none) :
    extract_movies_from_soup soup = [] := by
  unfold extract_movies_from_soup
  simp only [h]

/-- Witness for C7 on a concrete page with no listing container. -/
theorem c7_no_container_witness :
    findNode w7page (fun n => tagIs "div" n && hasClass "movies-list" n) = none ∧
    extract_movies_from_soup w7page = [] :=
  ⟨rfl, c7_no_container_empty w7page rfl⟩

/-- Fold invariant of the fallback genre loop: the collected names stay
free of duplicates. -/
theorem genreFoldDedup_nodup :
    ∀ (links : List HNode) (acc : List String × List (Option String)),
      acc.1.Nodup → (links.foldl genreStepDedup acc).1.Nodup := by
  intro links
  induction links with
  | nil => exact fun acc h => h
  | cons a links ih =>
    intro acc hnd
    rw [List.foldl_cons]
    rcases hs : safe_text (some a) with _ | g
    · have hstep : genreStepDedup acc a = acc := by
        simp only [genreStepDedup, hs]
      rw [hstep]
      exact ih acc hnd
    · by_cases hg : g ∈ acc.1
      · have hstep : genreStepDedup acc a = acc := by
          simp only [genreStepDedup, hs]
          rw [if_pos hg]
        rw [hstep]
        exact ih acc hnd
      · have hstep : genreStepDedup acc a = (acc.1 ++ [g], acc.2 ++ [getAttr "href" a]) := by
          simp only [genreStepDedup, hs]
          rw [if_neg hg]
        rw [hstep]
        refine ih _ ?_
        simp [List.nodup_append, hnd, hg]

/-- The fallback genre names carry no duplicate. -/
theorem collectGenresDedup_nodup (links : List HNode) :
    (collectGenresDedup links).1.Nodup :=
  genreFoldDedup_nodup links ([], []) List.nodup_nil

/-- Concrete country block: label text and country anchor side by side in
one div, the shape of real listing markup. -/
def c5anchor : HNode :=
  el "a" [("href", "/country/usa")] [] [tx "USA"]

/-- Concrete labeled country div holding the label text and the anchor. -/
def c5div : HNode :=
  el "div" [] [] [tx "Country: ", c5anchor]

/-- Concrete item whose details scope holds the labeled country div. -/
def c5item : HNode :=
  el "div" [] ["ml-item"]
    [el "a" [("href", "/watch/c5")] ["ml-mask"] [el "h2" [] [] [tx "C Five"]],
     el "div" [("id", "hidden_tip")] [] [c5div]]

/-- Concrete page for the country counterexample. -/
def c5page : HNode :=
  el "html" [] [] [el "div" [] ["movies-list"] [c5item]]

/-- Concrete country anchor whose sole-string chain carries the label. -/
def w5anchor : HNode :=
  el "a" [("href", "/country/japan")] [] [tx "Country: Japan"]

/-- Concrete country div matched by the string property. -/
def w5cdiv : HNode :=
  el "div" [] [] [w5anchor]

/-- Concrete item whose country div is matched by the string property. -/
def w5item : HNode :=
  el "div" [] ["ml-item"]
    [el "a" [("href", "/watch/w5")] ["ml-mask"] [el "h2" [] [] [tx "W Five"]],
     el "div" [("id", "hidden_tip")] [] [w5cdiv]]

/-- C5 counterexample.  The claim reads the country branch as keyed on a
details-scope element whose own text contains the label Country: and
predicts that the first link inside it supplies the country.  On the item
below such a div exists, its own text contains the label, its first anchor
has text USA and an href, yet the extracted record has null country and
null country link: the BeautifulSoup string filter used by the code
matches the string property of a tag, which is none for a div holding
label text next to an anchor, so the labeled div is never found. -/
theorem c5_counterexample_labeled_div_gives_null :
    findNode (hiddenOf c5item)
      (fun n => tagIs "div" n && ciContains (specOwnText n) "Country:") = some c5div ∧
    ciContains (getText c5div) "Country:" = true ∧
    safe_text (findNode c5div (tagIs "a")) = some "USA" ∧
    (findNode c5div (tagIs "a")).bind (getAttr "href") = some "/country/usa" ∧
    (extract_movies_from_soup c5page).map (fun m => (m.country, m.links.country)) =
      [(none, none)] :=
  ⟨rfl, rfl, rfl, rfl, rfl⟩

/-- C5 as amended.  For every successfully extracted record, the country
branch is keyed on the first details-scope div whose string property, the
sole text content reached through sole children, matches Country: without
case; when no such div exists both country fields are null, and when it
exists the first anchor inside it supplies text and href, with both fields
null when there is no truthy anchor. -/
theorem c5_country_from_string_property (st : Option MaskVars) (it : HNode)
    (m : Movie) (st' : Option MaskVars) (h : extractItem st it = Except.ok (m, st')) :
    (findNode (hiddenOf it) (fun n => tagIs "div" n && stringCi "Country:" n) = none →
      m.country = none ∧ m.links.country = none) ∧
    (∀ bc, findNode (hiddenOf it) (fun n => tagIs "div" n && stringCi "Country:" n) = some bc →
      (findNode bc (tagIs "a") = none → m.country = none ∧ m.links.country = none) ∧
      (∀ ac, findNode bc (tagIs "a") = some ac → truthy ac = true →
        m.country = safe_text (some ac) ∧ m.links.country = getAttr "href" ac) ∧
      (∀ ac, findNode bc (tagIs "a") = some ac → truthy ac = false →
        m.country = none ∧ m.links.country = none)) := by
  obtain ⟨t, mv, rfl⟩ := extractItem_ok_build h
  have hc : (buildMovie it t mv).country = (countryOf (hiddenOf it)).1 := rfl
  have hl : (buildMovie it t mv).links.country = (countryOf (hiddenOf it)).2 := rfl
  constructor
  · intro hnone
    rw [hc, hl]
    unfold countryOf
    simp only [hnone]
    exact ⟨trivial, trivial⟩
  · intro bc hbc
    have htr : truthy bc = true := truthy_of_stringCi (findNode_pred hbc)
    refine ⟨?_, ?_, ?_⟩
    · intro hna
      rw [hc, hl]
      unfold countryOf
      simp only [hbc, if_pos htr, hna]
      exact ⟨trivial, trivial⟩
    · intro ac hac hta
      rw [hc, hl]
      unfold countryOf
      simp only [hbc, if_pos htr, hac, if_pos hta]
      exact ⟨trivial, trivial⟩
    · intro ac hac hta
      rw [hc, hl]
      unfold countryOf
      simp [hbc, if_pos htr, hac, hta]

/-- Witness for the amended C5 on a concrete item whose country div is
matched through the string property. -/
theorem c5_string_property_witness :
    ∃ m st', extractItem none w5item = Except.ok (m, st') ∧
      m.country = some "Country: Japan" ∧ m.links.country = some "/country/japan" := by
  refine ⟨_, _, rfl, ?_⟩
  have h := c5_country_from_string_property none w5item _ _ rfl
  have h2 := (h.2 w5cdiv rfl).2.1 w5anchor rfl rfl
  exact ⟨h2.1.trans rfl, h2.2.trans rfl⟩

/-- Concrete labeled genre div: label text and one genre anchor. -/
def c6anchor : HNode :=
  el "a" [("href", "/genre/action")] [] [tx "Action"]

/-- Concrete genre div whose own text carries the label. -/
def c6gdiv : HNode :=
  el "div" [] [] [tx "Genre: ", c6anchor]

/-- Concrete sibling block holding an unrelated genre-pattern link. -/
def c6extra : HNode :=
  el "div" [] [] [el "a" [("href", "/genre/extra")] [] [tx "Extra"], tx " and more"]

/-- Concrete item for the genre counterexample. -/
def c6item : HNode :=
  el "div" [] ["ml-item"]
    [el "a" [("href", "/watch/c6")] ["ml-mask"] [el "h2" [] [] [tx "C Six"]],
     el "div" [("id", "hidden_tip")] [] [c6gdiv, c6extra]]

/-- Concrete page for the genre counterexample. -/
def c6page : HNode :=
  el "html" [] [] [el "div" [] ["movies-list"] [c6item]]

/-- Concrete genre anchor whose sole-string chain carries the label. -/
def w6anchor : HNode :=
  el "a" [("href", "/genre/horror")] [] [tx "Genre: Horror"]

/-- Concrete genre div matched by the string property. -/
def w6gdiv : HNode :=
  el "div" [] [] [w6anchor]

/-- Concrete item whose genre div is matched by the string property. -/
def w6item : HNode :=
  el "div" [] ["ml-item"]
    [el "a" [("href", "/watch/w6")] ["ml-mask"] [el "h2" [] [] [tx "W Six"]],
     el "div" [("id", "hidden_tip")] [] [w6gdiv]]

/-- C6 counterexample.  The claim predicts that when a details-scope
element whose text contains the label Genre: exists, the genres are
collected from the links inside that element only.  On the item below such
a div exists and holds exactly one anchor, Action, yet the extracted
genres also include Extra, an anchor outside the labeled div: the string
filter of the code does not match a div holding label text next to
anchors, so the fallback scan over the whole details scope runs instead. -/
theorem c6_counterexample_labeled_div_not_sole_source :
    findNode (hiddenOf c6item)
      (fun n => tagIs "div" n && ciContains (specOwnText n) "Genre:") = some c6gdiv ∧
    ciContains (getText c6gdiv) "Genre:" = true ∧
    (findAllNodes c6gdiv (tagIs "a")).map (fun a => safe_text (some a)) = [some "Action"] ∧
    (extract_movies_from_soup c6page).map (fun m => (m.genres, m.links.genres)) =
      [(["Action", "Extra"], [some "/genre/action", some "/genre/extra"])] :=
  ⟨rfl, rfl, rfl, rfl⟩

/-- C6 as amended.  For every successfully extracted record, the labeled
branch is keyed on the first details-scope div whose string property
matches Genre: without case: when it exists the genres are collected from
the anchors inside it without deduplication, and only when no such div
exists does the fallback scan of the genre-pattern links of the whole
details scope run, deduplicating by name with first-seen order, so that
the resulting names carry no duplicate. -/
theorem c6_genres_from_string_property (st : Option MaskVars) (it : HNode)
    (m : Movie) (st' : Option MaskVars) (h : extractItem st it = Except.ok (m, st')) :
    (findNode (hiddenOf it) (fun n => tagIs "div" n && stringCi "Genre:" n) = none →
      (m.genres, m.links.genres) = collectGenresDedup (genreFallbackLinks (hiddenOf it)) ∧
      m.genres.Nodup) ∧
    (∀ gd, findNode (hiddenOf it) (fun n => tagIs "div" n && stringCi "Genre:" n) = some gd →
      (m.genres, m.links.genres) = collectGenres (findAllNodes gd (tagIs "a"))) := by
  obtain ⟨t, mv, rfl⟩ := extractItem_ok_build h
  have hg : (buildMovie it t mv).genres = (genresOf (hiddenOf it)).1 := rfl
  have hlg : (buildMovie it t mv).links.genres = (genresOf (hiddenOf it)).2 := rfl
  constructor
  · intro hnone
    have hform : genresOf (hiddenOf it)
        = collectGenresDedup (genreFallbackLinks (hiddenOf it)) := by
      unfold genresOf
      simp only [hnone]
    constructor
    · rw [hg, hlg, hform]
    · rw [hg, hform]
      exact collectGenresDedup_nodup _
  · intro gd hgd
    have htr : truthy gd = true := truthy_of_stringCi (findNode_pred hgd)
    have hform : genresOf (hiddenOf it) = collectGenres (findAllNodes gd (tagIs "a")) := by
      unfold genresOf
      simp only [hgd, if_pos htr]
    rw [hg, hlg, hform]

/-- Witness for the amended C6 on a concrete item whose genre div is
matched through the string property. -/
theorem c6_string_property_witness :
    ∃ m st', extractItem none w6item = Except.ok (m, st') ∧
      (m.genres, m.links.genres) = collectGenres (findAllNodes w6gdiv (tagIs "a")) ∧
      m.genres = ["Genre: Horror"] := by
  refine ⟨_, _, rfl, ?_⟩
  have h := c6_genres_from_string_property none w6item _ _ rfl
  exact ⟨h.2 w6gdiv rfl, rfl⟩

/-- Concrete item whose id attribute, year text and rating text all fail
numeric coercion. -/
def w8item : HNode :=
  el "div" [("data-movie-id", "abc")] ["ml-item"]
    [el "a" [("href", "/watch/w8")] ["ml-mask"] [el "h2" [] [] [tx "W Eight"]],
     el "div" [("id", "hidden_tip")] []
       [el "a" [("href", "/release-year/soon")] [] [tx "soon"],
        el "div" [] ["jt-imdb"] [tx "N/A"]]]

/-- C8.  The numeric fields degrade to null rather than raising: whenever
the item would succeed for the reasons unrelated to numeric parsing, it
does succeed, and if the id text does not parse as a Python int, the year
text has no four digit run, or the rating text has no decimal token, the
corresponding field of the record is null. -/
theorem c8_numeric_failures_to_null (st : Option MaskVars) (it : HNode)
    (hmask : pyTruthy (maskOf it) = true ∨ st.isSome = true) :
    ∃ m st', extractItem st it = Except.ok (m, st') ∧
      (pyInt (dataIdOf it) = none → m.id = none) ∧
      ((∀ s, yearTextOf (hiddenOf it) = some s → fourDigitRun s.data = none) →
        m.year = none) ∧
      ((∀ s, ratingTextOf (hiddenOf it) = some s → firstNum s.data = none) →
        m.imdb_rating = none) := by
  have hok : (extractItem st it).isOk = true := (extractItem_isOk st it).mpr hmask
  rcases he : extractItem st it with u | ⟨m, st'⟩
  · rw [he] at hok
    simp [Except.isOk, Except.toBool] at hok
  · obtain ⟨t, mv, hm⟩ := extractItem_ok_build he
    refine ⟨m, st', rfl, ?_, ?_, ?_⟩
    · intro hid
      rw [hm]
      show idOf it = none
      unfold idOf
      by_cases hd : (dataIdOf it == "") = true
      · rw [if_pos hd]
      · rw [if_neg hd]
        exact hid
    · intro hy
      rw [hm]
      show (yearOf (hiddenOf it)).1 = none
      rw [yearOf_fst]
      rcases hyt : yearTextOf (hiddenOf it) with _ | s
      · rfl
      · simp only [Option.some_bind]
        exact hy s hyt
    · intro hr
      rw [hm]
      show imdbOf (hiddenOf it) = none
      rw [imdbOf_eq]
      rcases hrt : ratingTextOf (hiddenOf it) with _ | s
      · rfl
      · simp only [parse_imdb]
        by_cases hse : (s == "") = true
        · rw [if_pos hse]
        · rw [if_neg hse]
          exact hr s hrt

/-- Witness for C8 on a concrete item with non-numeric id text, a year
anchor without digits and a rating block without digits: the record is
still produced and all three numeric fields are null. -/
theorem c8_numeric_witness :
    ∃ m st', extractItem none w8item = Except.ok (m, st') ∧
      m.id = none ∧ m.year = none ∧ m.imdb_rating = none := by
  obtain ⟨m, st', he, h1, h2, h3⟩ := c8_numeric_failures_to_null none w8item (Or.inl rfl)
  refine ⟨m, st', he, h1 rfl, h2 ?_, h3 ?_⟩
  · intro s hs
    rw [show yearTextOf (hiddenOf w8item) = some "soon" from rfl] at hs
    cases hs
    rfl
  · intro s hs
    rw [show ratingTextOf (hiddenOf w8item) = some "N/A" from rfl] at hs
    cases hs
    rfl

/-- Did an attempt succeed with status 200. -/
def is200 : AttemptOutcome → Bool
  | .ok s _ => s == 200
  | .exn => false

/-- Prepending the delay of the first attempt to the delays of the later
attempts. -/
theorem linDelays_range_succ (backoff : ℚ) (a k : Nat) :
    (List.range (k + 1)).map (fun j => linDelay backoff (a + j)) =
      linDelay backoff a :: (List.range k).map (fun j => linDelay backoff (a + 1 + j)) := by
  rw [List.range_succ_eq_map, List.map_cons, List.map_map]
  refine congrArg₂ List.cons (by rw [Nat.add_zero]) ?_
  refine List.map_congr_left ?_
  intro j _
  simp only [Function.comp]
  congr 1
  omega

/-- The retry loop issues at most one request per unit of its attempt
budget. -/
theorem fetchFrom_requests_le (responses : Nat → AttemptOutcome) (backoff : ℚ) :
    ∀ fuel a, (fetchFrom responses backoff fuel a).requests ≤ fuel := by
  intro fuel
  induction fuel with
  | zero => intro a; exact Nat.le_refl 0
  | succ n ih =>
    intro a
    unfold fetchFrom
    rcases hr : responses a with ⟨s, b⟩ | _
    · simp only [hr]
      by_cases hs : (s == 200) = true
      · rw [if_pos hs]
        exact Nat.succ_le_succ (Nat.zero_le n)
      · rw [if_neg hs]
        exact Nat.succ_le_succ (ih (a + 1))
    · simp only [hr]
      exact Nat.succ_le_succ (ih (a + 1))

/-- When the first success is the attempt with zero-based index k, the
retry loop stops there: the body of that response is returned, exactly
k plus one requests were issued, and the sleeps performed are the linear
backoff of the k failed attempts. -/
theorem fetchFrom_success (responses : Nat → AttemptOutcome) (backoff : ℚ) :
    ∀ (k fuel a : Nat) (body : String), k < fuel →
      (∀ j, j < k → is200 (responses (a + j)) = false) →
      responses (a + k) = .ok 200 body →
      fetchFrom responses backoff fuel a =
        ⟨some body, k + 1, (List.range k).map (fun j => linDelay backoff (a + j))⟩ := by
  intro k
  induction k with
  | zero =>
    intro fuel a body hk _ hsucc
    rcases fuel with _ | n
    · exact absurd hk (Nat.not_lt_zero 0)
    · rw [Nat.add_zero] at hsucc
      unfold fetchFrom
      simp only [hsucc]
      rw [if_pos (by rfl)]
      rfl
  | succ k ih =>
    intro fuel a body hk hprev hsucc
    rcases fuel with _ | n
    · exact absurd hk (Nat.not_lt_zero _)
    · have h0 : is200 (responses a) = false := by
        have h := hprev 0 (Nat.succ_pos k)
        rwa [Nat.add_zero] at h
      have hprev' : ∀ j, j < k → is200 (responses (a + 1 + j)) = false := by
        intro j hj
        have h := hprev (j + 1) (Nat.succ_lt_succ hj)
        rwa [show a + (j + 1) = a + 1 + j by omega] at h
      have hsucc' : responses (a + 1 + k) = .ok 200 body := by
        rwa [show a + (k + 1) = a + 1 + k by omega] at hsucc
      have hrec := ih n (a + 1) body (Nat.lt_of_succ_lt_succ hk) hprev' hsucc'
      unfold fetchFrom
      rcases hr : responses a with ⟨s, b⟩ | _
      · have hs : (s == 200) = false := by
          rw [hr] at h0
          exact h0
        simp only [hr]
        rw [if_neg (by rw [hs]; exact Bool.false_ne_true), hrec,
          linDelays_range_succ]
      · simp only [hr]
        rw [hrec, linDelays_range_succ]

/-- When every attempt of the budget fails, the retry loop returns none,
issues exactly one request per attempt, and sleeps the linear backoff
after every attempt, the last included. -/
theorem fetchFrom_allFail (responses : Nat → AttemptOutcome) (backoff : ℚ) :
    ∀ fuel a, (∀ j, j < fuel → is200 (responses (a + j)) = false) →
      fetchFrom responses backoff fuel a =
        ⟨none, fuel, (List.range fuel).map (fun j => linDelay backoff (a + j))⟩ := by
  intro fuel
  induction fuel with
  | zero => intro a _; rfl
  | succ n ih =>
    intro a hall
    have h0 : is200 (responses a) = false := by
      have h := hall 0 (Nat.succ_pos n)
      rwa [Nat.add_zero] at h
    have hall' : ∀ j, j < n → is200 (responses (a + 1 + j)) = false := by
      intro j hj
      have h := hall (j + 1) (Nat.succ_lt_succ hj)
      rwa [show a + (j + 1) = a + 1 + j by omega] at h
    have hrec := ih (a + 1) hall'
    unfold fetchFrom
    rcases hr : responses a with ⟨s, b⟩ | _
    · have hs : (s == 200) = false := by
        rw [hr] at h0
        exact h0
      simp only [hr]
      rw [if_neg (by rw [hs]; exact Bool.false_ne_true), hrec,
        linDelays_range_succ]
    · simp only [hr]
      rw [hrec, linDelays_range_succ]

/-- C9.  One fetch call issues at most the configured number of requests
and always returns: the first attempt answering with status 200 ends the
loop at once with that body, after k failed attempts exactly the sleeps
backoff times one up to backoff times k have been performed in order, and
when every attempt fails the call returns none instead of raising. -/
theorem c9_fetch_retry_contract (responses : Nat → AttemptOutcome)
    (tries : Nat) (backoff : ℚ) :
    (fetch_html responses tries backoff).requests ≤ tries ∧
    (∀ k body, k < tries →
      (∀ j, j < k → is200 (responses j) = false) →
      responses k = .ok 200 body →
      fetch_html responses tries backoff =
        ⟨some body, k + 1, (List.range k).map (linDelay backoff)⟩) ∧
    ((∀ k, k < tries → is200 (responses k) = false) →
      fetch_html responses tries backoff =
        ⟨none, tries, (List.range tries).map (linDelay backoff)⟩) := by
  refine ⟨fetchFrom_requests_le responses backoff tries 0, ?_, ?_⟩
  · intro k body hk hprev hsucc
    have h := fetchFrom_success responses backoff k tries 0 body hk
      (fun j hj => by rw [Nat.zero_add]; exact hprev j hj)
      (by rw [Nat.zero_add]; exact hsucc)
    unfold fetch_html
    rw [h]
    congr 1
    exact List.map_congr_left (fun j _ => congrArg (linDelay backoff) (Nat.zero_add j))
  · intro hall
    have h := fetchFrom_allFail responses backoff tries 0
      (fun j hj => by rw [Nat.zero_add]; exact hall j hj)
    unfold fetch_html
    rw [h]
    congr 1
    exact List.map_congr_left (fun j _ => congrArg (linDelay backoff) (Nat.zero_add j))

/-- Witness for C9: with every attempt raising, a two-attempt fetch issues
at most two requests, returns none, and sleeps backoff times one then
backoff times two. -/
theorem c9_fetch_witness :
    (fetch_html (fun _ => AttemptOutcome.exn) 2 1).requests ≤ 2 ∧
    fetch_html (fun _ => AttemptOutcome.exn) 2 1 =
      ⟨none, 2, (List.range 2).map (linDelay 1)⟩ := by
  refine ⟨(c9_fetch_retry_contract (fun _ => AttemptOutcome.exn) 2 1).1, ?_⟩
  exact (c9_fetch_retry_contract (fun _ => AttemptOutcome.exn) 2 1).2.2
    (fun k _ => rfl)

/-- Parser stub for concrete runs of main. -/
def w10parse : String → HNode := fun _ => tx ""

/-- C10 counterexample.  The claim states that the output file is written
exactly when the fetch returns page text.  When every attempt answers with
status 200 and an empty body, the fetch does return page text, the empty
string, yet main treats the falsy string as a failed fetch: nothing is
written and the failure line is printed. -/
theorem c10_counterexample_empty_body_not_written :
    (fetch_html (fun _ => AttemptOutcome.ok 200 "") 3 1).result = some "" ∧
    (main (fun _ => AttemptOutcome.ok 200 "") w10parse).written = none ∧
    (main (fun _ => AttemptOutcome.ok 200 "") w10parse).printed =
      ["Failed to fetch HTML from " ++ URL] :=
  ⟨rfl, rfl, rfl⟩

/-- C10 as amended.  The run writes the output, the extracted records
under the movies member, exactly when the fetch returns nonempty page
text; when the fetch fails after all attempts, and likewise when it
returns an empty body, nothing is written and the human-readable failure
line is printed. -/
theorem c10_write_iff_nonempty_fetch (responses : Nat → AttemptOutcome)
    (parseHtml : String → HNode) :
    ((main responses parseHtml).written.isSome = true ↔
      ∃ t, (fetch_html responses 3 1).result = some t ∧ t ≠ "") ∧
    (∀ t, (fetch_html responses 3 1).result = some t → t ≠ "" →
      (main responses parseHtml).written =
        some (extract_movies_from_soup (parseHtml t)) ∧
      (main responses parseHtml).printed =
        ["Wrote " ++ toString (extract_movies_from_soup (parseHtml t)).length
          ++ " movies to " ++ OUTPUT_FILE]) ∧
    ((fetch_html responses 3 1).result = none →
      (main responses parseHtml).written = none ∧
      (main responses parseHtml).printed = ["Failed to fetch HTML from " ++ URL]) ∧
    ((fetch_html responses 3 1).result = some "" →
      (main responses parseHtml).written = none ∧
      (main responses parseHtml).printed = ["Failed to fetch HTML from " ++ URL]) := by
  rcases hres : (fetch_html responses 3 1).result with _ | t
  · have hmain : main responses parseHtml =
        ⟨none, ["Failed to fetch HTML from " ++ URL]⟩ := by
      unfold main
      simp only [hres]
    refine ⟨?_, ?_, ?_, ?_⟩
    · simp [hmain, hres]
    · intro t ht _
      cases ht
    · intro _
      rw [hmain]
      exact ⟨rfl, rfl⟩
    · intro h
      cases h
  · by_cases ht : t = ""
    · subst ht
      have hmain : main responses parseHtml =
          ⟨none, ["Failed to fetch HTML from " ++ URL]⟩ := by
        unfold main
        simp only [hres]
        rfl
      refine ⟨?_, ?_, ?_, ?_⟩
      · simp [hmain, hres]
      · intro t' ht' hne
        cases ht'
        exact absurd rfl hne
      · intro h
        cases h
      · intro _
        rw [hmain]
        exact ⟨rfl, rfl⟩
    · have hbeq : (t == "") = false := by
        simp [ht]
      have hmain : main responses parseHtml =
          ⟨some (extract_movies_from_soup (parseHtml t)),
           ["Wrote " ++ toString (extract_movies_from_soup (parseHtml t)).length
             ++ " movies to " ++ OUTPUT_FILE]⟩ := by
        unfold main
        simp only [hres, hbeq, Bool.false_eq_true, if_false]
      refine ⟨?_, ?_, ?_, ?_⟩
      · simp only [hmain, hres, Option.isSome_some]
        refine ⟨fun _ => ⟨t, rfl, ht⟩, fun _ => ?_⟩
        trivial
      · intro t' ht' _
        cases ht'
        rw [hmain]
        exact ⟨rfl, rfl⟩
      · intro h
        cases h
      · intro h
        cases h
        exact absurd rfl ht

/-- Witness for the amended C10: a run whose every attempt raises writes
nothing and prints the failure line, and a run fetching a nonempty body
writes the extracted records. -/
theorem c10_fetch_failure_witness :
    (main (fun _ => AttemptOutcome.exn) w10parse).written = none ∧
    (main (fun _ => AttemptOutcome.exn) w10parse).printed =
      ["Failed to fetch HTML from " ++ URL] ∧
    (main (fun _ => AttemptOutcome.ok 200 "page") w10parse).written =
      some (extract_movies_from_soup (w10parse "page")) := by
  refine ⟨?_, ?_, ?_⟩
  · exact ((c10_write_iff_nonempty_fetch (fun _ => AttemptOutcome.exn) w10parse).2.2.1 rfl).1
  · exact ((c10_write_iff_nonempty_fetch (fun _ => AttemptOutcome.exn) w10parse).2.2.1 rfl).2
  · exact ((c10_write_iff_nonempty_fetch (fun _ => AttemptOutcome.ok 200 "page")
      w10parse).2.1 "page" rfl (by decide)).1

end Pokki
